import Mathlib

/-!
# Verification of the batch HTML/map export orchestrator (src/main.ts)

Shallow embedding of the Obsidian Pandoc-export plugin's `main.ts`:
the two command check-callbacks (`html-exportall`, `map-exportall`),
the per-job functions `startHtmlExport` and `startMapExport`, the
eligibility check `currentFileCanBeExported`, the capability probe
`createBinaryMap`, and the output-path computations.

Side effects (user notices, console logs, active-document switches,
filesystem writes and appends) are modelled as an explicit event trace
produced in program order; the single logical thread of the source is
mirrored by concatenating each job's trace in execution order.
External collaborators (the renderer, `openFile`, the filesystem) are
modelled by a `JobBehaviour` record that says, per document, whether
the switch succeeds, what the renderer returns or throws, and whether
the write/append succeeds. Path strings use POSIX separators for the
host filesystem, matching the forward slashes of the spec's concrete
examples; the hard-coded backslashes in the source's template literals
are kept verbatim.
-/

/-- JavaScript truthiness of a `string | undefined` value: `undefined`
and the empty string are falsy. -/
def jsTruthy : Option String → Bool
  | none => false
  | some s => s ≠ ""

/-- POSIX `path.join` for the two-component joins performed by the
source: every call site passes a nonempty first component without a
trailing separator (`html`, `` `${outputFolder}\html` ``, the vault
base path), for which node's join is plain concatenation with `/`. -/
def posixJoin (a b : String) : String :=
  a ++ ("/") ++ b

/-- Characters strictly after the last occurrence of `sep`
(the whole list when `sep` does not occur is handled by the caller:
the result is `none` when `sep` is absent). -/
def afterLast (sep : Char) : List Char → Option (List Char)
  | [] => none
  | c :: cs =>
    match afterLast sep cs with
    | some r => some r
    | none => if c = sep then some cs else none

/-- Characters strictly before the last occurrence of `sep`
(`none` when `sep` is absent). -/
def beforeLast (sep : Char) : List Char → Option (List Char)
  | [] => none
  | c :: cs =>
    match beforeLast sep cs with
    | some r => some (c :: r)
    | none => if c = sep then some [] else none

/-- POSIX `path.basename`: the component after the last `/`. -/
def posixBasename (p : String) : String :=
  match afterLast ('/') p.data with
  | some r => String.mk r
  | none => p

/-- Modelled from the spec: `replaceFileExtension` lives in
`global.ts`, which is not under `src/`; the spec states the naming rule
"input `name.ext` → `name.<target-extension>`". The extension after the
last dot is replaced by `ext`. -/
def replaceFileExtension (p ext : String) : String :=
  match beforeLast ('.') p.data with
  | some r => String.mk r ++ (".") ++ ext
  | none => p ++ (".") ++ ext

/-- JavaScript `s.endsWith(suffix)`: the last characters of `s` are
exactly `suffix`. -/
def strEndsWith (s suffix : String) : Bool :=
  s.data.drop (s.data.length - suffix.data.length) == suffix.data

/-- The plugin settings fields the orchestrator reads
(`PandocPluginSettings` from `global.ts`): an output folder and the
two user-configured binary paths. Each is a JS `string | undefined`. -/
structure Settings where
  outputFolder : Option String
  pandoc : Option String
  pdflatex : Option String
deriving DecidableEq

/-- A markdown file of the vault as returned by
`app.vault.getMarkdownFiles()`: its vault-relative path. -/
structure Doc where
  path : String
deriving DecidableEq

/-- `FileSystemAdapter.getFullPath`: the vault-relative path resolved
against the adapter's base path. -/
def getFullPath (basePath p : String) : String :=
  posixJoin basePath p

/-- One observable side effect of the orchestrator, in program order:
`noticeExporting i t` is `new Notice('Exporting ' + i + ' to ' + t)`;
`noticeSuccess o` is `new Notice('Successfully exported via Pandoc to ' + o)`;
`noticeFailure m` is `new Notice(m, 15000)` with the 15-second duration;
`log`/`logError` are `console.log`/`console.error`; `openFile p` is
`activeLeaf.openFile` on the document with vault path `p`; `fsWrite`
and `fsAppend` are the successful `fs.promises` write and append. -/
inductive Event where
  | noticeExporting (inputFile target : String)
  | noticeSuccess (outputFile : String)
  | noticeFailure (msg : String)
  | log (msg : String)
  | logError (msg : String)
  | openFile (p : String)
  | fsWrite (p content : String)
  | fsAppend (p content : String)
deriving DecidableEq

/-- The environment's response to one export job: whether the
active-document switch (`openFile`) succeeds, what the renderer
returns (`Except.error e` models a throw with description `e`), and
whether the filesystem write/append succeeds (`some e` models an I/O
error with description `e`). -/
structure JobBehaviour where
  openOk : Bool
  renderResult : Except String String
  writeResult : Option String

/-- The renderer did not throw for this job. -/
def renderOk (b : JobBehaviour) : Bool :=
  match b.renderResult with
  | Except.ok _ => true
  | Except.error _ => false

/-- The fragment the renderer produced (empty if it threw). -/
def renderedFragment (b : JobBehaviour) : String :=
  match b.renderResult with
  | Except.ok h => h
  | Except.error _ => ""

/-- Output path of `startHtmlExport` (src/main.ts lines 160-168):
extension replaced with `html`, basename placed under
`` `${outputFolder}\html` `` when an output folder is configured, else
under `html`, each joined by `path.join`. -/
def htmlExportOutputPath (s : Settings) (inputFile : String) : String :=
  let outputFile := replaceFileExtension inputFile ("html")
  if jsTruthy s.outputFolder then
    posixJoin (s.outputFolder.getD ("") ++ ("\\") ++ ("html")) (posixBasename outputFile)
  else
    posixJoin ("html") (posixBasename outputFile)

/-- Trace of one `startHtmlExport` call plus a flag telling whether it
threw (the `openFile` await is outside the `try`, so its failure
escapes the function; renderer and write failures are caught). -/
def startHtmlExport (s : Settings) (docPath fullPath shortName : String)
    (b : JobBehaviour) : List Event × Bool :=
  let hd := [Event.noticeExporting fullPath shortName,
             Event.log (("exporting: ") ++ fullPath)]
  if b.openOk then
    let hd := hd ++ [Event.openFile docPath]
    match b.renderResult with
    | Except.error e =>
        (hd ++ [Event.noticeFailure (("Pandoc export failed: ") ++ e),
                Event.logError e], false)
    | Except.ok html =>
        match b.writeResult with
        | some we =>
            (hd ++ [Event.noticeFailure (("Pandoc export failed: ") ++ we),
                    Event.logError we], false)
        | none =>
            (hd ++ [Event.fsWrite (htmlExportOutputPath s fullPath) html,
                    Event.log (("Successfully exported: ") ++ fullPath),
                    Event.noticeSuccess (htmlExportOutputPath s fullPath)], false)
  else (hd, true)

/-- `executeJobs`: run the queued jobs strictly in order; a thrown
exception (second component `true`) stops the loop and propagates. -/
def executeJobs : List (List Event × Bool) → List Event × Bool
  | [] => ([], false)
  | j :: rest =>
    if j.2 then (j.1, true)
    else
      let r := executeJobs rest
      (j.1 ++ r.1, r.2)

/-- The `console.log` lines emitted while the job list is built:
one `added job to export <fullPath>` per file, then the total. -/
def addedJobLogs (basePath : String) (files : List Doc) : List Event :=
  files.map (fun f => Event.log (("added job to export ") ++ getFullPath basePath f.path))
    ++ [Event.log (("total number of jobs: ") ++ toString files.length)]

/-- The job list built by the `html-exportall` command: one
`startHtmlExport` closure per markdown file, in enumeration order. -/
def htmlExportJobs (s : Settings) (basePath : String)
    (beh : String → JobBehaviour) (files : List Doc) : List (List Event × Bool) :=
  files.map (fun f => startHtmlExport s f.path (getFullPath basePath f.path) ("html") (beh f.path))

/-- The `html-exportall` check-callback (src/main.ts lines 43-70):
returns `(returned value, event trace, whether the job loop threw)`.
With no active leaf it returns `false` at once; otherwise it returns
`true`, and when `checking` is false it builds the job list and runs
`executeJobs` (un-awaited in the source, so the return value is `true`
even if a job throws). -/
def htmlExportAllCommand (checking activeLeaf : Bool) (s : Settings)
    (basePath : String) (files : List Doc) (beh : String → JobBehaviour) :
    Bool × List Event × Bool :=
  if !activeLeaf then (false, [], false)
  else if checking then (true, [], false)
  else
    let run := executeJobs (htmlExportJobs s basePath beh files)
    (true, addedJobLogs basePath files ++ run.1, run.2)

/-- The fixed HTML preamble the `map-exportall` command writes to the
shared destination (src/main.ts lines 83-91), verbatim. -/
def mapHeader : String :=
  "<!doctype html>\n<html>\n    <head>\n        <title>Map export</title>\n        <meta charset=\x27utf-8\x27/>\n        <style>\n</style>\n    </head>\n    <body>\n"

/-- The fixed HTML postamble appended after the last map job
(src/main.ts line 92), verbatim. -/
def mapFooter : String :=
  "</body>\n</html>"

/-- The shared map destination (src/main.ts lines 76-82). The template
literal of the `else` branch quotes `adapter.getBasePath()` as literal
text instead of interpolating it, so the adapter's base path (the
second argument) goes unused. -/
def mapOutputFile (s : Settings) (basePath : String) : String :=
  if jsTruthy s.outputFolder then s.outputFolder.getD ("") ++ ("\\map.html")
  else ("adapter.getBasePath()\\map.html")

/-- Trace of one `startMapExport` call plus a thrown flag; as in
`startHtmlExport` the `openFile` await sits outside the `try`, and the
write step *appends* the fragment to the shared destination. -/
def startMapExport (docPath fullPath outputFile : String)
    (b : JobBehaviour) : List Event × Bool :=
  let hd := [Event.noticeExporting fullPath ("map"),
             Event.log (("Map exporting: ") ++ fullPath)]
  if b.openOk then
    let hd := hd ++ [Event.openFile docPath]
    match b.renderResult with
    | Except.error e =>
        (hd ++ [Event.noticeFailure (("Pandoc export failed: ") ++ e),
                Event.logError e], false)
    | Except.ok html =>
        match b.writeResult with
        | some we =>
            (hd ++ [Event.noticeFailure (("Pandoc export failed: ") ++ we),
                    Event.logError we], false)
        | none =>
            (hd ++ [Event.fsAppend outputFile html,
                    Event.log (("Successfully Map exported: ") ++ fullPath),
                    Event.noticeSuccess outputFile], false)
  else (hd, true)

/-- The job list built by the `map-exportall` command. -/
def mapExportJobs (basePath outputFile : String)
    (beh : String → JobBehaviour) (files : List Doc) : List (List Event × Bool) :=
  files.map (fun f => startMapExport f.path (getFullPath basePath f.path) outputFile (beh f.path))

/-- The `map-exportall` check-callback (src/main.ts lines 71-119):
returns `(returned value, event trace, whether the job loop threw)`.
After the active-leaf guard it computes the destination and issues the
preamble `writeFile` unconditionally — also when merely `checking` —
then, when `checking` is false, runs the jobs and finally appends the
postamble (skipped if a job threw, since the footer `appendFile`
follows the job loop inside the same async function). -/
def mapExportCommand (checking activeLeaf : Bool) (s : Settings)
    (basePath : String) (files : List Doc) (beh : String → JobBehaviour) :
    Bool × List Event × Bool :=
  if !activeLeaf then (false, [], false)
  else
    let outputFile := mapOutputFile s basePath
    let pre : List Event := [Event.fsWrite outputFile mapHeader]
    if checking then (true, pre, false)
    else
      let run := executeJobs (mapExportJobs basePath outputFile beh files)
      if run.2 then (true, pre ++ addedJobLogs basePath files ++ run.1, true)
      else (true, pre ++ addedJobLogs basePath files ++ run.1
                    ++ [Event.fsAppend outputFile mapFooter], false)

/-- The static requirements of an output format (`needsPandoc` and
`needsLaTeX` live in `pandoc.ts`, not under `src/`; the spec says each
format statically declares whether it requires the external converter
and the typesetting engine, so a format is modelled by those two
flags). -/
structure FormatSpec where
  needsPandoc : Bool
  needsLaTeX : Bool
deriving DecidableEq

/-- The capability map `this.features`: the resolved `pandoc` and
`pdflatex` executable paths, `none` when unset. -/
structure Features where
  pandoc : Option String
  pdflatex : Option String
deriving DecidableEq

/-- JavaScript `a || b` on `string | undefined` values: `a` when
truthy (set and non-empty), else `b`. -/
def jsOr (a b : Option String) : Option String :=
  if jsTruthy a then a else b

/-- `createBinaryMap` (src/main.ts lines 148-151): each feature is the
user-configured path `||` the result of the PATH lookup (`lookpath`),
which is `none` when the executable is not found. -/
def createBinaryMap (s : Settings) (lookPandoc lookPdflatex : Option String) : Features :=
  { pandoc := jsOr s.pandoc lookPandoc
    pdflatex := jsOr s.pdflatex lookPdflatex }

/-- `currentFileCanBeExported` (src/main.ts lines 135-146):
capabilities first, then an active file must exist, then its path must
end with one of the supported input extensions. `currentFile` is the
result of `getCurrentFile()` (`none` when no active file);
`inputExts` is the `inputExtensions` list of `pandoc.ts`. -/
def currentFileCanBeExported (feats : Features) (inputExts : List String)
    (currentFile : Option String) (fmt : FormatSpec) : Bool :=
  if fmt.needsPandoc && !(jsTruthy feats.pandoc) then false
  else if fmt.needsLaTeX && !(jsTruthy feats.pdflatex) then false
  else
    match currentFile with
    | none => false
    | some file => inputExts.any (fun ext => strEndsWith file ext)

/-- Effect of one event on the content of the file at `target`:
`fsWrite` truncates and replaces, `fsAppend` appends, everything else
(and operations on other paths) leaves it unchanged. -/
def applyFs (target : String) (content : String) : Event → String
  | Event.fsWrite p c => if p = target then c else content
  | Event.fsAppend p c => if p = target then content ++ c else content
  | _ => content

/-- Content of the file at `target` after a trace runs, starting from
`init`. -/
def fileAfter (trace : List Event) (target init : String) : String :=
  trace.foldl (fun acc e => applyFs target acc e) init

/-- Is the event a user-visible notification (`new Notice(...)`)? -/
def isNotice : Event → Bool
  | Event.noticeExporting _ _ => true
  | Event.noticeSuccess _ => true
  | Event.noticeFailure _ => true
  | _ => false

/-- Is the event the initial `Exporting ... to ...` notification? -/
def isInitialNotice : Event → Bool
  | Event.noticeExporting _ _ => true
  | _ => false

/-- Is the event an outcome notification (success or failure)? -/
def isOutcomeNotice : Event → Bool
  | Event.noticeSuccess _ => true
  | Event.noticeFailure _ => true
  | _ => false

/-- Concatenation of rendered fragments in order. -/
def concatFragments : List String → String
  | [] => ""
  | h :: t => h ++ concatFragments t

/-! ## Fixtures used by witnesses and counterexamples -/

/-- Settings with nothing configured. -/
def emptySettings : Settings :=
  { outputFolder := none, pandoc := none, pdflatex := none }

/-- A two-document vault. -/
def docA : Doc := { path := "a.md" }

/-- Second document of the two-document vault. -/
def docB : Doc := { path := "b.md" }

/-- Third document, for the three-document map run. -/
def docC : Doc := { path := "c.md" }

/-- A well-behaved environment, except that rendering `a.md` throws. -/
def behRenderFailA : String → JobBehaviour := fun p =>
  if p = "a.md" then { openOk := true, renderResult := Except.error ("boom"), writeResult := none }
  else { openOk := true, renderResult := Except.ok ("<p>ok</p>"), writeResult := none }

/-- An environment where the active-document switch for `a.md` fails
and everything else succeeds. -/
def behOpenFailA : String → JobBehaviour := fun p =>
  if p = "a.md" then { openOk := false, renderResult := Except.ok ("<p>ok</p>"), writeResult := none }
  else { openOk := true, renderResult := Except.ok ("<p>ok</p>"), writeResult := none }

/-- An environment where every job succeeds, each document rendering
to a distinct fragment. -/
def behAllOk : String → JobBehaviour := fun p =>
  { openOk := true, renderResult := Except.ok (("<div>") ++ p ++ ("</div>")), writeResult := none }

/-! ## Helper lemmas -/

/-- String concatenation is associative. -/
theorem strAppendAssoc (a b c : String) : a ++ b ++ c = a ++ (b ++ c) :=
  String.append_assoc a b c

/-- A job whose active-document switch succeeds never throws out of
`startHtmlExport`: renderer and write failures are caught. -/
theorem startHtmlExport_ok_no_throw (s : Settings) (dp fp sn : String)
    (b : JobBehaviour) (h : b.openOk = true) :
    (startHtmlExport s dp fp sn b).2 = false := by
  rcases b with ⟨o, rr, wr⟩
  cases o
  · cases h
  · cases rr <;> cases wr <;> simp [startHtmlExport]

/-- A job whose active-document switch succeeds never throws out of
`startMapExport`. -/
theorem startMapExport_ok_no_throw (dp fp out : String)
    (b : JobBehaviour) (h : b.openOk = true) :
    (startMapExport dp fp out b).2 = false := by
  rcases b with ⟨o, rr, wr⟩
  cases o
  · cases h
  · cases rr <;> cases wr <;> simp [startMapExport]

/-- When no queued job throws, `executeJobs` runs them all and its
trace is the concatenation of the per-job traces, in queue order. -/
theorem executeJobs_all_ok (js : List (List Event × Bool))
    (h : ∀ j ∈ js, j.2 = false) :
    executeJobs js = ((js.map Prod.fst).flatten, false) := by
  induction js with
  | nil => simp [executeJobs]
  | cons j rest ih =>
      have hj : j.2 = false := h j (List.mem_cons_self j rest)
      have hrest : ∀ x ∈ rest, x.2 = false := fun x hx => h x (List.mem_cons_of_mem j hx)
      simp [executeJobs, hj, ih hrest]

/-! ## C4 — export eligibility -/

/-- C4: `currentFileCanBeExported` returns true iff every capability
the format requires is present (truthy) in the capability map, an
active document exists, and its path ends with one of the statically
enumerated supported input extensions; hence it is false for any
format requiring a missing capability regardless of the active
document, and false for every format when the extension is
unsupported. -/
theorem c4_canExport_iff (feats : Features) (inputExts : List String)
    (currentFile : Option String) (fmt : FormatSpec) :
    currentFileCanBeExported feats inputExts currentFile fmt = true ↔
      ((fmt.needsPandoc = true → jsTruthy feats.pandoc = true) ∧
       (fmt.needsLaTeX = true → jsTruthy feats.pdflatex = true) ∧
       ∃ file, currentFile = some file ∧ ∃ ext ∈ inputExts, strEndsWith file ext = true) := by
  rcases fmt with ⟨np, nl⟩
  unfold currentFileCanBeExported
  cases np <;> cases nl <;> cases currentFile <;>
    cases hp : jsTruthy feats.pandoc <;> cases hl : jsTruthy feats.pdflatex <;>
      simp [hp, hl, List.any_eq_true]

/-- Concrete instance of `c4_canExport_iff`: with pandoc resolved, a
`.md` active file and a pandoc-requiring format, export is allowed. -/
theorem c4_witness :
    currentFileCanBeExported
      { pandoc := some ("/usr/bin/pandoc"), pdflatex := none } [(".md")]
      (some ("note.md")) { needsPandoc := true, needsLaTeX := false } = true :=
  (c4_canExport_iff _ _ _ _).mpr
    ⟨fun _ => by decide, fun h => by simp at h,
     ⟨("note.md"), rfl, ⟨(".md"), by simp, by decide⟩⟩⟩

/-! ## C6 — map destination path -/

/-- C6 (code bug): with no output folder configured the map
destination should be `map.html` under the vault base path, but the
template literal on src/main.ts line 81 quotes `adapter.getBasePath()`
instead of calling it, so the destination is the literal string
`adapter.getBasePath()\map.html` whatever the base path is; the
configured-folder branch works as specified. -/
theorem c6_mapDestination_bug :
    mapOutputFile emptySettings ("/vault") = "adapter.getBasePath()\\map.html" ∧
    mapOutputFile emptySettings ("/vault") ≠ ("/vault") ++ ("\\map.html") ∧
    mapOutputFile { outputFolder := some ("out"), pandoc := none, pdflatex := none } ("/vault")
      = "out\\map.html" := by
  refine ⟨by decide, by decide, by decide⟩

/-! ## C8 — capability detection -/

/-- C8: each capability resolves to the user-configured path when it
is set and non-empty, otherwise to the PATH-lookup result; when the
configured path is unset/empty and the lookup found nothing the entry
is `none` (left unset), and `createBinaryMap` is total, so no error is
raised. -/
theorem c8_capabilityResolution (ofo sp sl lp ll : Option String) :
    ((createBinaryMap { outputFolder := ofo, pandoc := sp, pdflatex := sl } lp ll).pandoc
        = if jsTruthy sp then sp else lp) ∧
    ((createBinaryMap { outputFolder := ofo, pandoc := sp, pdflatex := sl } lp ll).pdflatex
        = if jsTruthy sl then sl else ll) ∧
    (jsTruthy sp = false → lp = none →
      (createBinaryMap { outputFolder := ofo, pandoc := sp, pdflatex := sl } lp ll).pandoc = none) ∧
    (jsTruthy sl = false → ll = none →
      (createBinaryMap { outputFolder := ofo, pandoc := sp, pdflatex := sl } lp ll).pdflatex = none) := by
  refine ⟨rfl, rfl, ?_, ?_⟩ <;> intro h1 h2 <;> simp [createBinaryMap, jsOr, h1, h2]

/-- Concrete instance of `c8_capabilityResolution`: nothing configured
and nothing on the PATH leaves the capability unset. -/
theorem c8_witness : (createBinaryMap emptySettings none none).pandoc = none :=
  (c8_capabilityResolution none none none none none).2.2.1 rfl rfl

/-! ## C9 — checking the map command writes the preamble -/

/-- C9: with an active view, calling the map command's check callback
with `checking = true` already computes the shared destination and
issues the preamble write — truncating any prior content of that
file — before returning `true`, and creates no job (the trace is
exactly the one write). -/
theorem c9_check_writes_preamble (s : Settings) (bp : String) (files : List Doc)
    (beh : String → JobBehaviour) (prior : String) :
    mapExportCommand true true s bp files beh
      = (true, [Event.fsWrite (mapOutputFile s bp) mapHeader], false) ∧
    fileAfter (mapExportCommand true true s bp files beh).2.1 (mapOutputFile s bp) prior
      = mapHeader := by
  constructor
  · simp [mapExportCommand]
  · simp [mapExportCommand, fileAfter, applyFs]

/-! ## C10 — command availability -/

/-- C10 is false on the code: with an active view and an empty vault
(zero documents) the `html-exportall` check callback still returns
`true`, though the claim requires it to be false when no document
exists. -/
theorem c10_counterexample :
    (htmlExportAllCommand true true emptySettings ("/v") [] behAllOk).1 = true ∧
    ¬((htmlExportAllCommand true true emptySettings ("/v") [] behAllOk).1 = true ↔
        (([] : List Doc) ≠ [] ∧ True)) := by
  refine ⟨rfl, fun h => ?_⟩
  exact (h.mp rfl).1 rfl

/-- C10 amended: both check callbacks return true iff an active view
is present; the number of documents is never consulted. -/
theorem c10_amended_availability (checking activeLeaf : Bool) (s : Settings)
    (bp : String) (files : List Doc) (beh : String → JobBehaviour) :
    (htmlExportAllCommand checking activeLeaf s bp files beh).1 = activeLeaf ∧
    (mapExportCommand checking activeLeaf s bp files beh).1 = activeLeaf := by
  constructor
  · cases activeLeaf <;> cases checking <;> simp [htmlExportAllCommand]
  · cases activeLeaf
    · simp [mapExportCommand]
    · cases checking
      · cases hr : (executeJobs (mapExportJobs bp (mapOutputFile s bp) beh files)).2 <;>
          simp [mapExportCommand, hr]
      · simp [mapExportCommand]

/-! ## Batch-trace helpers for the html command -/

/-- When every job's active-document switch succeeds, the
`html-exportall` run returns `true`, its trace is the job-creation
logs followed by every job's trace concatenated in enumeration order,
and nothing throws. -/
theorem htmlBatchTraceEq (s : Settings) (bp : String) (files : List Doc)
    (beh : String → JobBehaviour)
    (hopen : ∀ f ∈ files, (beh f.path).openOk = true) :
    htmlExportAllCommand false true s bp files beh
      = (true, addedJobLogs bp files
          ++ ((htmlExportJobs s bp beh files).map Prod.fst).flatten, false) := by
  have hjobs : ∀ j ∈ htmlExportJobs s bp beh files, j.2 = false := by
    intro j hj
    rcases List.mem_map.mp hj with ⟨f, hf, rfl⟩
    exact startHtmlExport_ok_no_throw _ _ _ _ _ (hopen f hf)
  simp [htmlExportAllCommand, executeJobs_all_ok _ hjobs]

/-- Any event of a job's trace occurs in the batch trace when every
switch succeeds. -/
theorem mem_htmlBatch_trace (s : Settings) (bp : String) (files : List Doc)
    (beh : String → JobBehaviour)
    (hopen : ∀ f ∈ files, (beh f.path).openOk = true)
    {f : Doc} (hf : f ∈ files) {e : Event}
    (he : e ∈ (startHtmlExport s f.path (getFullPath bp f.path) ("html") (beh f.path)).1) :
    e ∈ (htmlExportAllCommand false true s bp files beh).2.1 := by
  rw [htmlBatchTraceEq s bp files beh hopen]
  refine List.mem_append.mpr (Or.inr ?_)
  refine List.mem_flatten.mpr
    ⟨(startHtmlExport s f.path (getFullPath bp f.path) ("html") (beh f.path)).1, ?_, he⟩
  refine List.mem_map.mpr ⟨startHtmlExport s f.path (getFullPath bp f.path) ("html") (beh f.path), ?_, rfl⟩
  exact List.mem_map.mpr ⟨f, hf, rfl⟩

/-- Per-job notification counts: a job whose switch succeeds emits
exactly one initial notification, exactly one outcome notification and
no other notification. -/
theorem startHtmlExport_notice_counts (s : Settings) (dp fp sn : String)
    (b : JobBehaviour) (h : b.openOk = true) :
    (startHtmlExport s dp fp sn b).1.countP isInitialNotice = 1 ∧
    (startHtmlExport s dp fp sn b).1.countP isOutcomeNotice = 1 ∧
    (startHtmlExport s dp fp sn b).1.countP isNotice = 2 := by
  rcases b with ⟨o, rr, wr⟩
  cases o
  · cases h
  · cases rr <;> cases wr <;>
      simp [startHtmlExport, isInitialNotice, isOutcomeNotice, isNotice,
        List.countP_cons, List.countP_append]

/-- The job-creation logs contain no notification. -/
theorem addedJobLogs_no_notice (bp : String) (files : List Doc) :
    (addedJobLogs bp files).countP isNotice = 0 := by
  rw [List.countP_eq_zero]
  intro e he
  rcases List.mem_append.mp he with h | h
  · rcases List.mem_map.mp h with ⟨f, _, rfl⟩
    simp [isNotice]
  · simp at h
    subst h
    simp [isNotice]

/-- Total notification count of the concatenated job traces: two per
document. -/
theorem htmlJobs_flatten_notice_count (s : Settings) (bp : String)
    (beh : String → JobBehaviour) (files : List Doc)
    (hopen : ∀ f ∈ files, (beh f.path).openOk = true) :
    (((htmlExportJobs s bp beh files).map Prod.fst).flatten).countP isNotice
      = 2 * files.length := by
  induction files with
  | nil => simp [htmlExportJobs]
  | cons f fs ih =>
      have hf : (beh f.path).openOk = true := hopen f (List.mem_cons_self f fs)
      have hfs : ∀ x ∈ fs, (beh x.path).openOk = true :=
        fun x hx => hopen x (List.mem_cons_of_mem f hx)
      have hc := (startHtmlExport_notice_counts s f.path (getFullPath bp f.path) ("html")
        (beh f.path) hf).2.2
      have step : htmlExportJobs s bp beh (f :: fs)
          = startHtmlExport s f.path (getFullPath bp f.path) ("html") (beh f.path)
            :: htmlExportJobs s bp beh fs := by
        simp [htmlExportJobs]
      rw [step]
      simp only [List.map_cons, List.flatten_cons, List.countP_append, hc, ih hfs,
        List.length_cons]
      omega

/-! ## C1 — job count, order, strict sequencing -/

/-- C1: for a document set of size N (with every job's
active-document switch succeeding, the case the claim presumes when it
says all N jobs execute), the `html-exportall` command creates exactly
N jobs, and the run's trace is the per-job traces concatenated in
document enumeration order — so jobs never interleave and job N's
write or failure notification occurs strictly before job N+1's first
event. -/
theorem c1_batch_jobs_in_order (s : Settings) (bp : String) (files : List Doc)
    (beh : String → JobBehaviour)
    (hopen : ∀ f ∈ files, (beh f.path).openOk = true) :
    (htmlExportJobs s bp beh files).length = files.length ∧
    (htmlExportAllCommand false true s bp files beh).2.1
      = addedJobLogs bp files ++ ((htmlExportJobs s bp beh files).map Prod.fst).flatten ∧
    (htmlExportAllCommand false true s bp files beh).2.2 = false := by
  refine ⟨by simp [htmlExportJobs], ?_, ?_⟩ <;>
    rw [htmlBatchTraceEq s bp files beh hopen]

/-- Concrete instance of `c1_batch_jobs_in_order`: a two-document
vault yields two jobs and a clean sequential run. -/
theorem c1_witness :
    (htmlExportJobs emptySettings ("/v") behAllOk [docA, docB]).length = 2 ∧
    (htmlExportAllCommand false true emptySettings ("/v") [docA, docB] behAllOk).2.2 = false := by
  have h := c1_batch_jobs_in_order emptySettings ("/v") [docA, docB] behAllOk (by decide)
  exact ⟨h.1, h.2.2⟩

/-! ## C2 — per-job notifications and failure isolation -/

/-- The failure notification of a render failure, with the error's
description, is in the job's trace. -/
theorem startHtmlExport_renderFail_mem (s : Settings) (dp fp sn : String)
    (b : JobBehaviour) (e : String) (ho : b.openOk = true)
    (hr : b.renderResult = Except.error e) :
    Event.noticeFailure (("Pandoc export failed: ") ++ e)
      ∈ (startHtmlExport s dp fp sn b).1 := by
  rcases b with ⟨o, rr, wr⟩
  cases o
  · cases ho
  · simp only at hr
    subst hr
    simp [startHtmlExport]

/-- The failure notification of a write failure, with the error's
description, is in the job's trace. -/
theorem startHtmlExport_writeFail_mem (s : Settings) (dp fp sn : String)
    (b : JobBehaviour) (h we : String) (ho : b.openOk = true)
    (hr : b.renderResult = Except.ok h) (hw : b.writeResult = some we) :
    Event.noticeFailure (("Pandoc export failed: ") ++ we)
      ∈ (startHtmlExport s dp fp sn b).1 := by
  rcases b with ⟨o, rr, wr⟩
  cases o
  · cases ho
  · simp only at hr hw
    subst hr
    subst hw
    simp [startHtmlExport]

/-- C2: in a batch whose active-document switches succeed, every job
emits exactly one initial `Exporting …` notification and exactly one
outcome notification; a render or write failure produces a failure
notification carrying the error's description inside the batch trace;
the batch never aborts (nothing throws), and the total notification
count is 2N. -/
theorem c2_per_job_notifications (s : Settings) (bp : String) (files : List Doc)
    (beh : String → JobBehaviour)
    (hopen : ∀ f ∈ files, (beh f.path).openOk = true) :
    (htmlExportAllCommand false true s bp files beh).2.2 = false ∧
    (∀ f ∈ files,
      (startHtmlExport s f.path (getFullPath bp f.path) ("html") (beh f.path)).1.countP
        isInitialNotice = 1 ∧
      (startHtmlExport s f.path (getFullPath bp f.path) ("html") (beh f.path)).1.countP
        isOutcomeNotice = 1) ∧
    (∀ f ∈ files, ∀ e, (beh f.path).renderResult = Except.error e →
      Event.noticeFailure (("Pandoc export failed: ") ++ e)
        ∈ (htmlExportAllCommand false true s bp files beh).2.1) ∧
    (∀ f ∈ files, ∀ h we, (beh f.path).renderResult = Except.ok h →
      (beh f.path).writeResult = some we →
      Event.noticeFailure (("Pandoc export failed: ") ++ we)
        ∈ (htmlExportAllCommand false true s bp files beh).2.1) ∧
    (htmlExportAllCommand false true s bp files beh).2.1.countP isNotice
      = 2 * files.length := by
  refine ⟨?_, ?_, ?_, ?_, ?_⟩
  · rw [htmlBatchTraceEq s bp files beh hopen]
  · intro f hf
    have hc := startHtmlExport_notice_counts s f.path (getFullPath bp f.path) ("html")
      (beh f.path) (hopen f hf)
    exact ⟨hc.1, hc.2.1⟩
  · intro f hf e hr
    exact mem_htmlBatch_trace s bp files beh hopen hf
      (startHtmlExport_renderFail_mem s f.path (getFullPath bp f.path) ("html")
        (beh f.path) e (hopen f hf) hr)
  · intro f hf h we hr hw
    exact mem_htmlBatch_trace s bp files beh hopen hf
      (startHtmlExport_writeFail_mem s f.path (getFullPath bp f.path) ("html")
        (beh f.path) h we (hopen f hf) hr hw)
  · rw [htmlBatchTraceEq s bp files beh hopen]
    simp only [List.countP_append, addedJobLogs_no_notice,
      htmlJobs_flatten_notice_count s bp beh files hopen]
    omega

/-- Concrete instance of `c2_per_job_notifications`: with `a.md`'s
render throwing, the batch still does not abort and emits two
notifications per document. -/
theorem c2_witness :
    (htmlExportAllCommand false true emptySettings ("/v") [docA, docB] behRenderFailA).2.2
      = false ∧
    (htmlExportAllCommand false true emptySettings ("/v") [docA, docB] behRenderFailA).2.1.countP
      isNotice = 2 * ([docA, docB] : List Doc).length := by
  have h := c2_per_job_notifications emptySettings ("/v") [docA, docB] behRenderFailA (by decide)
  exact ⟨h.1, h.2.2.2.2⟩

/-! ## C5 — error isolation -/

/-- C5 is false on the code: `await activeLeaf.openFile(file)` sits
outside the per-job `try`, so when the switch for `a.md` fails the
rejection propagates out of that job; the batch aborts and `b.md`'s
job never starts (its initial notification is absent from the
trace). -/
theorem c5_counterexample :
    (htmlExportAllCommand false true emptySettings ("/v") [docA, docB] behOpenFailA).2.2
      = true ∧
    Event.noticeExporting (getFullPath ("/v") ("b.md")) ("html")
      ∉ (htmlExportAllCommand false true emptySettings ("/v") [docA, docB] behOpenFailA).2.1 := by
  decide

/-- C5 amended: render and write errors are isolated per job — with
every active-document switch succeeding, no job throws (in either
export flavour) and neither batch aborts; only a switch failure or a
pre-batch setup failure can propagate. -/
theorem c5_amended_isolation (s : Settings) (bp out : String) (files : List Doc)
    (beh : String → JobBehaviour)
    (hopen : ∀ f ∈ files, (beh f.path).openOk = true) :
    (htmlExportAllCommand false true s bp files beh).2.2 = false ∧
    (∀ f ∈ files,
      (startHtmlExport s f.path (getFullPath bp f.path) ("html") (beh f.path)).2 = false) ∧
    (∀ f ∈ files,
      (startMapExport f.path (getFullPath bp f.path) out (beh f.path)).2 = false) := by
  refine ⟨?_, ?_, ?_⟩
  · rw [htmlBatchTraceEq s bp files beh hopen]
  · intro f hf
    exact startHtmlExport_ok_no_throw _ _ _ _ _ (hopen f hf)
  · intro f hf
    exact startMapExport_ok_no_throw _ _ _ _ (hopen f hf)

/-- Concrete instance of `c5_amended_isolation`: a render failure on
`a.md` does not abort the batch. -/
theorem c5_witness :
    (htmlExportAllCommand false true emptySettings ("/v") [docA, docB] behRenderFailA).2.2
      = false :=
  (c5_amended_isolation emptySettings ("/v") ("unused") [docA, docB] behRenderFailA
    (by decide)).1

/-! ## File-content helpers for the map command -/

/-- Does the event touch the filesystem? -/
def isFs : Event → Bool
  | Event.fsWrite _ _ => true
  | Event.fsAppend _ _ => true
  | _ => false

/-- `fileAfter` splits over trace concatenation. -/
theorem fileAfter_append (t1 t2 : List Event) (tgt c : String) :
    fileAfter (t1 ++ t2) tgt c = fileAfter t2 tgt (fileAfter t1 tgt c) := by
  simp [fileAfter, List.foldl_append]

/-- A trace without filesystem events leaves every file unchanged. -/
theorem fileAfter_noFs (t : List Event) (tgt : String)
    (h : ∀ e ∈ t, isFs e = false) : ∀ c, fileAfter t tgt c = c := by
  induction t with
  | nil => intro c; rfl
  | cons e t ih =>
      intro c
      have he := h e (List.mem_cons_self e t)
      have ht := fun x hx => h x (List.mem_cons_of_mem e hx)
      have hstep : applyFs tgt c e = c := by
        cases e <;> simp [applyFs, isFs] at he ⊢
      rw [show fileAfter (e :: t) tgt c = fileAfter t tgt (applyFs tgt c e) from rfl,
        hstep, ih ht]

/-- The job-creation logs perform no filesystem operation. -/
theorem addedJobLogs_noFs (bp : String) (files : List Doc) :
    ∀ e ∈ addedJobLogs bp files, isFs e = false := by
  intro e he
  rcases List.mem_append.mp he with h | h
  · rcases List.mem_map.mp h with ⟨f, _, rfl⟩
    rfl
  · simp at h
    subst h
    rfl

/-- A map job whose switch succeeds never throws and, when its render
and append succeed, appends exactly its rendered fragment to the
shared destination. -/
theorem startMapExport_content (dp fp out c : String) (b : JobBehaviour)
    (ho : b.openOk = true) (hr : renderOk b = true) (hw : b.writeResult = none) :
    fileAfter (startMapExport dp fp out b).1 out c = c ++ renderedFragment b := by
  rcases b with ⟨o, rr, wr⟩
  cases o
  · cases ho
  · cases rr with
    | error e => simp [renderOk] at hr
    | ok h =>
        simp only at hw
        subst hw
        simp [startMapExport, fileAfter, applyFs, renderedFragment]

/-- Concatenated map-job traces append the fragments in enumeration
order. -/
theorem mapJobs_flatten_content (bp out : String) (beh : String → JobBehaviour)
    (files : List Doc) : ∀ c : String,
    (∀ f ∈ files, (beh f.path).openOk = true ∧ renderOk (beh f.path) = true ∧
      (beh f.path).writeResult = none) →
    fileAfter (((mapExportJobs bp out beh files).map Prod.fst).flatten) out c
      = c ++ concatFragments (files.map (fun f => renderedFragment (beh f.path))) := by
  induction files with
  | nil =>
      intro c h
      simp [mapExportJobs, fileAfter, concatFragments]
  | cons f fs ih =>
      intro c h
      obtain ⟨ho, hr, hw⟩ := h f (List.mem_cons_self f fs)
      have hfs := fun x hx => h x (List.mem_cons_of_mem f hx)
      have step : mapExportJobs bp out beh (f :: fs)
          = startMapExport f.path (getFullPath bp f.path) out (beh f.path)
            :: mapExportJobs bp out beh fs := by
        simp [mapExportJobs]
      rw [step]
      simp only [List.map_cons, List.flatten_cons]
      rw [fileAfter_append, startMapExport_content _ _ _ _ _ ho hr hw, ih _ hfs]
      simp [concatFragments, strAppendAssoc]

/-- When every job's switch succeeds, the map run returns `true` and
its trace is: preamble write, job-creation logs, the per-job traces in
enumeration order, postamble append. -/
theorem mapBatchTraceEq (s : Settings) (bp : String) (files : List Doc)
    (beh : String → JobBehaviour)
    (hopen : ∀ f ∈ files, (beh f.path).openOk = true) :
    mapExportCommand false true s bp files beh
      = (true, [Event.fsWrite (mapOutputFile s bp) mapHeader]
          ++ addedJobLogs bp files
          ++ ((mapExportJobs bp (mapOutputFile s bp) beh files).map Prod.fst).flatten
          ++ [Event.fsAppend (mapOutputFile s bp) mapFooter], false) := by
  have hjobs : ∀ j ∈ mapExportJobs bp (mapOutputFile s bp) beh files, j.2 = false := by
    intro j hj
    rcases List.mem_map.mp hj with ⟨f, hf, rfl⟩
    exact startMapExport_ok_no_throw _ _ _ _ (hopen f hf)
  simp [mapExportCommand, executeJobs_all_ok _ hjobs]

/-! ## C3 — map destination content after a successful run -/

/-- C3: after a successful map run (every switch, render and append
succeeds) over N documents, the shared destination consists of exactly
the fixed preamble, the N rendered fragments in document enumeration
order, and the fixed postamble — whatever the file held before. -/
theorem c3_map_file_content (s : Settings) (bp : String) (files : List Doc)
    (beh : String → JobBehaviour) (prior : String)
    (hok : ∀ f ∈ files, (beh f.path).openOk = true ∧ renderOk (beh f.path) = true ∧
      (beh f.path).writeResult = none) :
    fileAfter ((mapExportCommand false true s bp files beh).2.1) (mapOutputFile s bp) prior
      = mapHeader ++ concatFragments (files.map (fun f => renderedFragment (beh f.path)))
        ++ mapFooter := by
  have hopen : ∀ f ∈ files, (beh f.path).openOk = true := fun f hf => (hok f hf).1
  have h1 : fileAfter [Event.fsWrite (mapOutputFile s bp) mapHeader] (mapOutputFile s bp) prior
      = mapHeader := by
    simp [fileAfter, applyFs]
  have h2 : fileAfter (addedJobLogs bp files) (mapOutputFile s bp) mapHeader = mapHeader :=
    fileAfter_noFs _ _ (addedJobLogs_noFs bp files) mapHeader
  have h3 := mapJobs_flatten_content bp (mapOutputFile s bp) beh files mapHeader hok
  rw [mapBatchTraceEq s bp files beh hopen]
  rw [show ((true, [Event.fsWrite (mapOutputFile s bp) mapHeader]
          ++ addedJobLogs bp files
          ++ ((mapExportJobs bp (mapOutputFile s bp) beh files).map Prod.fst).flatten
          ++ [Event.fsAppend (mapOutputFile s bp) mapFooter], false) :
        Bool × List Event × Bool).2.1
      = [Event.fsWrite (mapOutputFile s bp) mapHeader]
          ++ addedJobLogs bp files
          ++ ((mapExportJobs bp (mapOutputFile s bp) beh files).map Prod.fst).flatten
          ++ [Event.fsAppend (mapOutputFile s bp) mapFooter] from rfl]
  rw [fileAfter_append, fileAfter_append, fileAfter_append, h1, h2, h3]
  simp [fileAfter, applyFs]

/-- Concrete instance of `c3_map_file_content`: three documents, prior
content `OLD`, distinct fragments. -/
theorem c3_witness :
    fileAfter ((mapExportCommand false true emptySettings ("/v") [docA, docB, docC] behAllOk).2.1)
        (mapOutputFile emptySettings ("/v")) ("OLD")
      = mapHeader
        ++ concatFragments ([docA, docB, docC].map (fun f => renderedFragment (behAllOk f.path)))
        ++ mapFooter :=
  c3_map_file_content emptySettings ("/v") [docA, docB, docC] behAllOk ("OLD") (by decide)

/-! ## C7 — html output path -/

/-- Appending respects equality on the left component. -/
theorem appendCongrLeft {a b : String} (h : a = b) (c : String) : a ++ c = b ++ c := by
  rw [h]

/-- C7 is false on the code as soon as an output folder is configured:
the template literal hard-codes a backslash between the output folder
and the `html` subfolder, so the result is not placed under
`out/html/`. -/
theorem c7_counterexample :
    htmlExportOutputPath { outputFolder := some ("out"), pandoc := none, pdflatex := none }
      ("/vault/notes/a.md") = "out\\html/a.html" ∧
    ("out\\html/a.html" : String) ≠ "out/html/a.html" := by
  decide

/-- C7 amended: the output path is the input's base name with its
extension replaced by `html`, under `html/` when no output folder is
configured (so `/vault/notes/a.md` yields `html/a.html`), and under
`` `<outputFolder>\html/` `` — with a hard-coded backslash — when one
is; determinism holds since the path is a pure function of settings
and input. -/
theorem c7_amended_output_path (s : Settings) (input : String) :
    (jsTruthy s.outputFolder = false →
      htmlExportOutputPath s input
        = ("html/") ++ posixBasename (replaceFileExtension input ("html"))) ∧
    (∀ folder, s.outputFolder = some folder → folder ≠ "" →
      htmlExportOutputPath s input
        = folder ++ ("\\html/") ++ posixBasename (replaceFileExtension input ("html"))) ∧
    htmlExportOutputPath emptySettings ("/vault/notes/a.md") = "html/a.html" := by
  refine ⟨?_, ?_, by decide⟩
  · intro h
    rw [show htmlExportOutputPath s input
        = ("html") ++ ("/") ++ posixBasename (replaceFileExtension input ("html")) from by
      simp [htmlExportOutputPath, posixJoin, h]]
    exact appendCongrLeft rfl _
  · intro folder hf hne
    have key : (folder ++ ("\\") ++ ("html")) ++ ("/") = folder ++ ("\\html/") := by
      rw [strAppendAssoc, strAppendAssoc]
      rfl
    rw [show htmlExportOutputPath s input
        = (folder ++ ("\\") ++ ("html")) ++ ("/")
          ++ posixBasename (replaceFileExtension input ("html")) from by
      simp [htmlExportOutputPath, posixJoin, hf, jsTruthy, hne]]
    exact appendCongrLeft key _

/-- Concrete instance of `c7_amended_output_path`: configured folder
`out`. -/
theorem c7_witness :
    htmlExportOutputPath { outputFolder := some ("out"), pandoc := none, pdflatex := none }
      ("/vault/notes/a.md")
      = ("out") ++ ("\\html/")
        ++ posixBasename (replaceFileExtension ("/vault/notes/a.md") ("html")) :=
  (c7_amended_output_path _ _).2.1 ("out") rfl (by decide)
